import Mathlib

/-
Verification of the NovelTranslator crawl-translate-persist core
(src/app.py) against its natural-language specification.

The embedding below is a shallow model of src/app.py:

* the global `state` dict becomes the structure `St`;
* the in-process `errors` list becomes `List ErrRec`;
* the S3 bucket is split into its three logical parts: the chapter
  objects (`chapters`, a key/body association list keyed by the chapter
  number that determines the zero-padded object name
  `chapters/{num:03d}.html`), the persisted crawl state (`state.json`)
  and the persisted error log (`errors.json`).  Every persistence call
  and every external call the worker performs is additionally recorded,
  in program order, in an event trace (`Ev`), so that ordering and
  invariant claims about persistence can be stated;
* the fallible operations of one iteration — the source site reached
  through `scrape`, the translation model called inside `translate`,
  and the `put_object` store write inside `save_chapter` — are an
  environment `Env` of oracles, mirroring the fact that in the Python
  source any of those calls may raise and that `worker` catches every
  exception of an iteration in one handler (in particular a storage
  failure is caught after `state["chapter"]` was already
  incremented);
* the `while` loop of `worker` becomes a fuel-indexed recursion: one
  unit of fuel per executed iteration; `break` is a plain return, so a
  finished run is insensitive to leftover fuel.

Python string truthiness matters in three places (`while ... and
state["current_url"]`, `if url:`, `if not state["current_url"]`,
`if not next_url`): an empty string is falsy, which the model reproduces
with explicit `== ""` tests next to the `Option` test.
-/

namespace NovelTranslator

/-- Boolean test that the second character list starts with the first. -/
def leadsList : List Char → List Char → Bool
  | [], _ => true
  | _ :: _, [] => false
  | a :: as, b :: bs => a == b && leadsList as bs

/-- Fuel-indexed core of `pySplit`: scan the character list left to
right; each time the separator occurs (non-overlapping, leftmost
match first), cut a fragment there and skip the separator.  One unit of
fuel is spent per step; since a separator match consumes at least one
character (the separator is nonempty at every call site), fuel equal to
the length of the input is always enough. -/
def splitGo (sep : List Char) : Nat → List Char → List (List Char)
  | _, [] => [[]]
  | 0, rest => [rest]
  | fuel + 1, c :: cs =>
    if leadsList sep (c :: cs) then
      [] :: splitGo sep fuel ((c :: cs).drop sep.length)
    else
      match splitGo sep fuel cs with
      | [] => [[c]]
      | f :: fs => (c :: f) :: fs

/-- Model of Python `s.split(sep)` with an explicit separator, as used
in `save_chapter` (src/app.py line 80): split on each non-overlapping
occurrence of `sep`, scanning left to right; `"".split(sep)` is
`[""]`; adjacent separators yield empty fragments.  (Python raises on
an empty separator; the only call site uses the fixed separator
`"\n\n"`, so the guard branch is unreachable there.) -/
def pySplit (s sep : String) : List String :=
  if sep.data.isEmpty then [s]
  else (splitGo sep.data s.data.length s.data).map (fun l => String.mk l)

/-- Removal of leading and trailing whitespace from a string.  This is
the specification-side notion of "trimmed of leading/trailing
whitespace" (Python `str.strip()`), used to compare against what the
source's `translate` actually returns. -/
def strTrim (s : String) : String :=
  String.mk (((s.data.dropWhile Char.isWhitespace).reverse.dropWhile
    Char.isWhitespace).reverse)

/-- Crawl state: mirror of the global `state` dict of src/app.py
(`running`, `current_url`, `chapter`, `visited`, `last_action`). -/
structure St where
  running : Bool
  current_url : Option String
  chapter : Nat
  visited : List String
  last_action : String
deriving DecidableEq, Repr

/-- Error record appended by the worker's exception handler
(src/app.py lines 158-163): attempted chapter number
(`state["chapter"] + 1`), source URL and message.  The wall-clock
`time` field is outside the model. -/
structure ErrRec where
  chapter : Nat
  url : String
  error : String
deriving DecidableEq, Repr

/-- Observable effects of the program, recorded in program order:

* `persistState s chs` — a `save_json(STATE_KEY, state)` call writing
  the crawl state `s` while the chapter store holds `chs`;
* `persistErrors es` — a `save_json(ERROR_KEY, errors)` call writing
  the error log `es`;
* `fetchCall url s` — entry into `scrape(url)` with in-memory state `s`;
* `translateCall raw` — entry into `translate(raw)`;
* `saveChapter n body` — entry into the `put_object` of
  `save_chapter(n, _)`, attempting to write `body` under the key
  derived from `n` (recorded whether or not the write succeeds). -/
inductive Ev where
  | persistState : St → List (Nat × String) → Ev
  | persistErrors : List ErrRec → Ev
  | fetchCall : String → St → Ev
  | translateCall : String → Ev
  | saveChapter : Nat → String → Ev
deriving DecidableEq, Repr

/-- Whole-system state: in-memory crawl state, the chapter objects in
the bucket (keyed by chapter number), the in-memory error log, and the
trace of observable effects so far. -/
structure Sys where
  st : St
  chapters : List (Nat × String)
  errors : List ErrRec
  trace : List Ev
deriving DecidableEq, Repr

/-- Environment of fallible external operations: `fetch url` models one
`scrape` call (returning the cleaned chapter text and the optional
resolved next-chapter URL, or the message of the exception it raises);
`translate text` models the chat-completion call inside `translate`
(returning the model's message content, or the message of the
exception it raises); `save n body` models the `put_object` store
write of `save_chapter` for chapter `n` (`none` when the write
succeeds, `some msg` when it raises — an S3 put is a whole-object
write, so a raised put leaves no object behind). -/
structure Env where
  fetch : String → Except String (String × Option String)
  translate : String → Except String String
  save : Nat → String → Option String

/-- The store writes of an environment never fail. -/
def saveOk (env : Env) : Prop :=
  ∀ n b, env.save n b = none

/-- Body rendering of `save_chapter` (src/app.py line 80):
`"".join(f"<p>{p}</p>" for p in text.split("\n\n"))` — wrap every
`"\n\n"`-separated fragment of the text in a `p` element, with the
fragment embedded verbatim (no HTML escaping, no filtering). -/
def renderBody (text : String) : String :=
  String.join ((pySplit text "\n\n").map (fun p => "<p>" ++ p ++ "</p>"))

/-- Model of `s3.put_object` on the chapter store: writing under a key
overwrites the object at that key, otherwise the object is created. -/
def putChapter (chs : List (Nat × String)) (n : Nat) (body : String) :
    List (Nat × String) :=
  if chs.any (fun kv => kv.1 == n) then
    chs.map (fun kv => if kv.1 == n then (n, body) else kv)
  else chs ++ [(n, body)]

/-- Mirror of `save_chapter(num, text)` (src/app.py lines 79-86):
render the body and write it under the key derived from `num`. -/
def save_chapter (chs : List (Nat × String)) (num : Nat) (text : String) :
    List (Nat × String) :=
  putChapter chs num (renderBody text)

/-- Mirror of `translate` (src/app.py lines 91-99) given the content
string the external model returned (`res.choices[0].message.content`):
the function returns that content unchanged — the source applies no
`.strip()` nor any other post-processing before returning. -/
def translate (content : String) : String :=
  content

/-- Mirror of the object lookup the `/read/{chapter}` route performs
(src/app.py lines 347-351) for the chapter numbered `n`: `none` models
the `NoSuchKey` failure of `s3.get_object` on a deleted or never
written key. -/
def storeGet (chs : List (Nat × String)) (n : Nat) : Option String :=
  (chs.find? (fun kv => kv.1 == n)).map Prod.snd

/-- Chapter read through the store of a whole-system state. -/
def get_chapter (sys : Sys) (n : Nat) : Option String :=
  storeGet sys.chapters n

/-- Insertion of a number into a sorted list of numbers. -/
def insertSorted (n : Nat) : List Nat → List Nat
  | [] => [n]
  | m :: rest => if n ≤ m then n :: m :: rest else m :: insertSorted n rest

/-- Insertion sort on numbers. -/
def sortNat : List Nat → List Nat
  | [] => []
  | n :: rest => insertSorted n (sortNat rest)

/-- Mirror of `list_chapters` (src/app.py lines 73-77): the sorted keys
under the chapter prefix.  Keys are represented by the chapter numbers
that determine the zero-padded object names `{num:03d}.html` the
source sorts. -/
def list_chapters (sys : Sys) : List Nat :=
  sortNat (sys.chapters.map Prod.fst)

/-- View returned by the `/status` route (src/app.py lines 172-179):
running flag, chapter counter, last action, error count. -/
structure StatusView where
  running : Bool
  chapter : Nat
  last_action : String
  errors : Nat
deriving DecidableEq, Repr

/-- Mirror of the `/status` route. -/
def status (sys : Sys) : StatusView :=
  ⟨sys.st.running, sys.st.chapter, sys.st.last_action, sys.errors.length⟩

/-- Text of the `last_action` set right before `scrape` is called:
`f"Fetching chapter {state['chapter'] + 1}"` for a current counter
value `c`. -/
def fetchingMsg (c : Nat) : String :=
  "Fetching chapter " ++ toString (c + 1)

/-- Text of the `last_action` set after a successful save:
`f"Saved Chapter {state['chapter']}"` for a counter value `c`. -/
def savedMsg (c : Nat) : String :=
  "Saved Chapter " ++ toString c

/-- Duplicate-detected status text of src/app.py line 129. -/
def dupMsg : String :=
  "Stopped (duplicate detected)"

/-- Exception handler of the worker (src/app.py lines 157-168), applied
to the system state at the point the exception was raised: append one
error record with the attempted chapter number `state["chapter"] + 1`,
persist the error log, clear `running`, set `last_action`, persist the
state.  The chapter store is untouched. -/
def errPath (sys : Sys) (url msg : String) : Sys :=
  let errs := sys.errors ++ [⟨sys.st.chapter + 1, url, msg⟩]
  let st := { sys.st with running := false, last_action := "Error occurred" }
  { sys with
      st := st
      errors := errs
      trace := sys.trace ++ [Ev.persistErrors errs, Ev.persistState st sys.chapters] }

/-- Normal-termination tail of the worker iteration (src/app.py lines
149-153): no next URL, so clear `running`, set `last_action`
to `"Completed"` and persist. -/
def completePath (sys : Sys) : Sys :=
  let st := { sys.st with running := false, last_action := "Completed" }
  { sys with
      st := st
      trace := sys.trace ++ [Ev.persistState st sys.chapters] }

/-- System state right after the worker set and persisted the fetching
status and entered `scrape(url)` (src/app.py lines 134-137).  Named
branch result of `step`, for use in lemma statements. -/
def fetchingSys (sys : Sys) (url : String) : Sys :=
  let st1 := { sys.st with last_action := fetchingMsg sys.st.chapter }
  { sys with
      st := st1
      trace := sys.trace ++ [Ev.persistState st1 sys.chapters, Ev.fetchCall url st1] }

/-- System state right after `scrape` returned `raw` and the worker
entered `translate(raw)` (src/app.py line 138).  Named branch result of
`step`, for use in lemma statements. -/
def translatingSys (sys : Sys) (url raw : String) : Sys :=
  { fetchingSys sys url with
      trace := (fetchingSys sys url).trace ++ [Ev.translateCall raw] }

/-- System state right after the counter was incremented (src/app.py
line 140) and `save_chapter` was entered (line 141): the store and the
rest of the crawl state are not yet touched.  This is the state the
exception handler sees when the store write itself raises.  Named
branch result of `step`, for use in lemma statements. -/
def savingSys (sys : Sys) (url raw content : String) : Sys :=
  let st1 := { sys.st with last_action := fetchingMsg sys.st.chapter }
  let c := sys.st.chapter + 1
  { st := { st1 with chapter := c }
    chapters := sys.chapters
    errors := sys.errors
    trace := sys.trace ++
      [Ev.persistState st1 sys.chapters, Ev.fetchCall url st1,
       Ev.translateCall raw, Ev.saveChapter c (renderBody (translate content))] }

/-- System state right after a fully successful iteration body
(src/app.py lines 134-147): counter incremented, chapter saved, URL
appended to `visited`, frontier advanced to `next`, saved status
persisted.  Named branch result of `step`, for use in lemma
statements. -/
def savedSys (sys : Sys) (url raw content : String) (next : Option String) : Sys :=
  let st1 := { sys.st with last_action := fetchingMsg sys.st.chapter }
  let c := sys.st.chapter + 1
  let body := renderBody (translate content)
  let chs := save_chapter sys.chapters c (translate content)
  let st2 : St :=
    { running := sys.st.running
      current_url := next
      chapter := c
      visited := sys.st.visited ++ [url]
      last_action := savedMsg c }
  { st := st2
    chapters := chs
    errors := sys.errors
    trace := sys.trace ++
      [Ev.persistState st1 sys.chapters, Ev.fetchCall url st1,
       Ev.translateCall raw, Ev.saveChapter c body, Ev.persistState st2 chs] }

/-- One iteration of the worker loop of src/app.py (lines 123-168),
including the loop-condition check at its top; the returned Boolean is
true exactly when the loop proceeds to another iteration (the
`time.sleep(2)` path) and false when the loop exits (condition false or
`break`).

Branches, in source order: loop condition (`running` truthy and
`current_url` truthy); duplicate check against `visited`; the `try`
block — set and persist the fetching status, call `scrape`, call
`translate`, increment the counter, `save_chapter` (whose `put_object`
may itself raise — after the increment), append the URL to `visited`,
advance `current_url`, set and persist the saved status, then either
stop with `"Completed"` when there is no truthy next URL or continue;
the `except` handler on a failure of any of the three fallible
calls. -/
def step (env : Env) (sys : Sys) : Sys × Bool :=
  match sys.st.running, sys.st.current_url with
  | false, _ => (sys, false)
  | true, none => (sys, false)
  | true, some url =>
    if url == "" then (sys, false)
    else if sys.st.visited.contains url then
      let st := { sys.st with running := false, last_action := dupMsg }
      ({ sys with
           st := st
           trace := sys.trace ++ [Ev.persistState st sys.chapters] }, false)
    else
      let st1 := { sys.st with last_action := fetchingMsg sys.st.chapter }
      let sys1 : Sys :=
        { sys with
            st := st1
            trace := sys.trace ++ [Ev.persistState st1 sys.chapters, Ev.fetchCall url st1] }
      match env.fetch url with
      | .error e => (errPath sys1 url e, false)
      | .ok (raw, next) =>
        let sys2 : Sys := { sys1 with trace := sys1.trace ++ [Ev.translateCall raw] }
        match env.translate raw with
        | .error e => (errPath sys2 url e, false)
        | .ok content =>
          let translated := translate content
          let c := sys2.st.chapter + 1
          let stInc := { sys2.st with chapter := c }
          let body := renderBody translated
          let sysInc : Sys :=
            { sys2 with
                st := stInc
                trace := sys2.trace ++ [Ev.saveChapter c body] }
          match env.save c body with
          | some e => (errPath sysInc url e, false)
          | none =>
            let chs := save_chapter sys2.chapters c translated
            let st2 :=
              { stInc with
                  visited := stInc.visited ++ [url]
                  current_url := next
                  last_action := savedMsg c }
            let sys3 : Sys :=
              { sysInc with
                  st := st2
                  chapters := chs
                  trace := sysInc.trace ++ [Ev.persistState st2 chs] }
            match next with
            | none => (completePath sys3, false)
            | some nu =>
              if nu == "" then (completePath sys3, false) else (sys3, true)

/-- Mirror of `worker` (src/app.py lines 123-168): run `step` until the
loop exits, spending one unit of fuel per iteration.  Any run that
terminates by itself is insensitive to extra fuel, so claims quantify
over sufficient fuel. -/
def worker (env : Env) : Nat → Sys → Sys
  | 0, sys => sys
  | fuel + 1, sys =>
    match step env sys with
    | (sys1, true) => worker env fuel sys1
    | (sys1, false) => sys1

/-- Mirror of the `/start` route (src/app.py lines 181-195) with the
optional form field `url`: a truthy URL reseeds `current_url`; a falsy
resulting `current_url` returns at once; otherwise, when not already
running, set `running`, set `last_action`, persist and spawn the
worker thread.  The Boolean of the result records whether a worker
thread was spawned. -/
def start (sys : Sys) (url : Option String) : Sys × Bool :=
  let st0 := match url with
    | some u => if u == "" then sys.st else { sys.st with current_url := some u }
    | none => sys.st
  match st0.current_url with
  | none => ({ sys with st := st0 }, false)
  | some cu =>
    if cu == "" then ({ sys with st := st0 }, false)
    else if st0.running then ({ sys with st := st0 }, false)
    else
      let st1 := { st0 with running := true, last_action := "Started" }
      ({ sys with
           st := st1
           trace := sys.trace ++ [Ev.persistState st1 sys.chapters] }, true)

/-- Mirror of the `/stop` route (src/app.py lines 197-202): clear
`running`, set `last_action = "Paused"`, persist — unconditionally. -/
def stop (sys : Sys) : Sys :=
  let st := { sys.st with running := false, last_action := "Paused" }
  { sys with
      st := st
      trace := sys.trace ++ [Ev.persistState st sys.chapters] }

/-- Mirror of the `/reset` route (src/app.py lines 204-223): delete
every chapter object, reinstall the default state with
`last_action = "Reset"`, clear the error log, persist both. -/
def reset (sys : Sys) : Sys :=
  let st : St :=
    { running := false
      current_url := none
      chapter := 0
      visited := []
      last_action := "Reset" }
  { st := st
    chapters := []
    errors := []
    trace := sys.trace ++ [Ev.persistState st [], Ev.persistErrors []] }

/-- Contiguous run of naturals `[s+1, s+2, ..., s+n]`: the key layout
"chapter numbers 1..N" is `natsFrom 0 N`. -/
def natsFrom : Nat → Nat → List Nat
  | _, 0 => []
  | s, n + 1 => (s + 1) :: natsFrom (s + 1) n

/-- The chapter store holds exactly the keys `1..chapter_count`, in
order.  Every state reachable from a fresh system satisfies this. -/
def keysRange (sys : Sys) : Prop :=
  sys.chapters.map Prod.fst = natsFrom 0 sys.st.chapter

/-- Per-event check for claim C2: every persisted crawl state counts
exactly the chapters present in the store at the moment of the
persistence call. -/
def persistEvOkB : Ev → Bool
  | .persistState s chs => s.chapter == chs.length
  | _ => true

/-- Adjacency check between consecutive trace events, for claim C3:
whenever a fetch begins, the event immediately before it is a
persistence of exactly the state the fetch sees, that state carries the
fetching status for the attempted chapter, and the fetched URL is not
yet in its (just persisted) visited set. -/
def fetchSeamB (a b : Ev) : Bool :=
  match b with
  | .fetchCall url s =>
    (match a with
     | .persistState s2 _ => decide (s2 = s)
     | _ => false)
    && !(s.visited.contains url)
    && (s.last_action == fetchingMsg s.chapter)
  | _ => true

/-- All adjacent pairs of a trace satisfy `fetchSeamB`. -/
def seamOkB : List Ev → Bool
  | [] => true
  | [_] => true
  | a :: b :: rest => fetchSeamB a b && seamOkB (b :: rest)

/-- Seam condition across a trace concatenation: the last event of the
first part against the first event of the second part. -/
def seamJoinB (t b : List Ev) : Bool :=
  match t.getLast?, b.head? with
  | some a, some c => fetchSeamB a c
  | _, _ => true

/-- A trace does not begin with a fetch call. -/
def headNotFetchB : List Ev → Bool
  | Ev.fetchCall _ _ :: _ => false
  | _ => true

/-- Trace discipline of claim C3 (amended): no fetch event without an
immediately preceding matching persistence event. -/
def fetchGuardedB (t : List Ev) : Bool :=
  headNotFetchB t && seamOkB t

/-- External-call or store-write events, for the frame part of claim
C4 ("without calling the Extractor, Translator, or Store"). -/
def isCallEv : Ev → Bool
  | .fetchCall _ _ => true
  | .translateCall _ => true
  | .saveChapter _ _ => true
  | _ => false

/-- One page of a chapter chain: its URL and the cleaned chapter text
`scrape` extracts from it. -/
structure Page where
  url : String
  text : String
deriving DecidableEq, Repr

/-- Fetch oracle induced by a chapter chain: looking up a URL in the
chain yields that page's text together with the URL of the following
page (`none` at the end of the chain, the normal end-of-book signal);
a URL outside the chain fails. -/
def chainFetch : List Page → String → Except String (String × Option String)
  | [], _ => .error "Content not found"
  | p :: rest, url =>
    if p.url == url then .ok (p.text, (rest.head?).map Page.url)
    else chainFetch rest url

/-- Environment of a failure-free run over a chapter chain: fetching
follows the chain and translation deterministically returns `tr` of
the text. -/
def chainEnv (pages : List Page) (tr : String → String) : Env :=
  { fetch := chainFetch pages
    translate := fun t => .ok (tr t)
    save := fun _ _ => none }

/-- Validity of a chapter chain: pairwise distinct URLs (no cycles) and
no falsy URL (a Python-empty URL would end the loop early). -/
def chainOk (pages : List Page) : Prop :=
  (pages.map Page.url).Nodup ∧ ∀ p ∈ pages, p.url ≠ ""

/-- Expected chapter store produced by a failure-free crawl of a chain
whose pages are numbered starting above `s`. -/
def expChapters (tr : String → String) : Nat → List Page → List (Nat × String)
  | _, [] => []
  | s, p :: ps => (s + 1, renderBody (tr p.text)) :: expChapters tr (s + 1) ps

/-- Initial system state of claim C1: counter 0, empty visited set,
frontier at the chain's first URL, `running` set (as `/start` leaves
it when spawning the worker thread), empty store, log and trace. -/
def initSys (url : String) : Sys :=
  { st := { running := true
            current_url := some url
            chapter := 0
            visited := []
            last_action := "Started" }
    chapters := []
    errors := []
    trace := [] }

/-- Generic mid-run system state of a failure-free chain crawl: the
pages of `done` have been crawled already (store, counter and visited
set reflect exactly them), and the frontier sits at `r.url`. -/
def chainSys (tr : String → String) (done : List Page) (r : Page)
    (la : String) (trc : List Ev) (errs : List ErrRec) : Sys :=
  { st := { running := true
            current_url := some r.url
            chapter := done.length
            visited := done.map Page.url
            last_action := la }
    chapters := expChapters tr 0 done
    errors := errs
    trace := trc }

/-- Specification-side rendering for claim C9, following the spec's
words: the concatenation, over the fragments in order, of
`"<p>" ++ fragment ++ "</p>"`. -/
def wrapParas : List String → String
  | [] => ""
  | p :: ps => "<p>" ++ p ++ "</p>" ++ wrapParas ps

/-- Plain concatenation of a list of strings. -/
def concatAll : List String → String
  | [] => ""
  | a :: l => a ++ concatAll l

/-- Concrete one-page environment used by witnesses and
counterexamples: URL "A" yields the text "Hello" and no next link. -/
def envA : Env :=
  { fetch := fun u => if u == "A" then .ok ("Hello", none) else .error "Content not found"
    translate := fun t => .ok t
    save := fun _ _ => none }

/-- Concrete always-failing fetch environment. -/
def envFail : Env :=
  { fetch := fun _ => .error "Content not found"
    translate := fun t => .ok t
    save := fun _ _ => none }

/-- Concrete environment whose fetch and translation succeed on page
"A" but whose store write raises, exercising the storage-failure arm of
the worker's exception handler. -/
def envSaveFail : Env :=
  { fetch := fun u => if u == "A" then .ok ("Hello", none) else .error "Content not found"
    translate := fun t => .ok t
    save := fun _ _ => some "InternalError" }

/-- Concrete two-page chain (the spec's concrete scenario of section
8): page A yields two paragraphs and links to B; page B ends the
chain. -/
def pagesAB : List Page :=
  [⟨"A", "Hello.\n\nWorld."⟩, ⟨"B", "Bye."⟩]

/-- Concrete running system state whose frontier URL has already been
visited, for the duplicate-detection claim. -/
def sysDup : Sys :=
  { st := { running := true
            current_url := some "A"
            chapter := 1
            visited := ["A"]
            last_action := "Saved Chapter 1" }
    chapters := [(1, "<p>x</p>")]
    errors := []
    trace := [] }

/-- Concrete running system state with one saved chapter and the
frontier at a second, unvisited URL, for the fault-isolation claim. -/
def sysErr : Sys :=
  { st := { running := true
            current_url := some "B"
            chapter := 1
            visited := ["A"]
            last_action := "Saved Chapter 1" }
    chapters := [(1, "<p>x</p>")]
    errors := []
    trace := [] }

/-- Concrete idle system state with a nonempty store, used to observe
what `stop` and `start` leave unchanged. -/
def sysIdle : Sys :=
  { st := { running := false
            current_url := some "A"
            chapter := 1
            visited := ["A"]
            last_action := "Idle" }
    chapters := [(1, "<p>x</p>")]
    errors := []
    trace := [] }

/- ===================== Helper lemmas ===================== -/

theorem foldl_append_eq (l : List String) :
    ∀ acc : String, l.foldl (· ++ ·) acc = acc ++ concatAll l := by
  induction l with
  | nil => intro acc; simp [concatAll]
  | cons a l ih =>
    intro acc
    simp only [List.foldl_cons, concatAll]
    rw [ih (acc ++ a), String.append_assoc]

theorem join_eq_concatAll (l : List String) : String.join l = concatAll l := by
  unfold String.join
  rw [foldl_append_eq, String.empty_append]

theorem concatAll_wrap (l : List String) :
    concatAll (l.map (fun p => "<p>" ++ p ++ "</p>")) = wrapParas l := by
  induction l with
  | nil => rfl
  | cons a l ih =>
    simp only [List.map_cons, concatAll, wrapParas]
    rw [ih]

theorem renderBody_eq_wrapParas (t : String) :
    renderBody t = wrapParas (pySplit t "\n\n") := by
  rw [renderBody, join_eq_concatAll, concatAll_wrap]

theorem find?_replace (chs : List (Nat × String)) (n : Nat) (b : String)
    (h : chs.any (fun kv => kv.1 == n) = true) :
    (chs.map (fun kv => if kv.1 == n then (n, b) else kv)).find?
      (fun kv => kv.1 == n) = some (n, b) := by
  induction chs with
  | nil => simp at h
  | cons kv rest ih =>
    by_cases hk : kv.1 = n
    · have hhead : ((if kv.1 == n then (n, b) else kv) : Nat × String) = (n, b) := by
        simp [hk]
      simp only [List.map_cons, hhead]
      rw [List.find?_cons_of_pos]
      simp
    · have hkb : (kv.1 == n) = false := beq_eq_false_iff_ne.mpr hk
      have hhead : ((if kv.1 == n then (n, b) else kv) : Nat × String) = kv := by
        simp [hkb]
      have h2 : rest.any (fun kv => kv.1 == n) = true := by
        simp only [List.any_cons, hkb, Bool.false_or] at h
        exact h
      simp only [List.map_cons, hhead]
      rw [List.find?_cons_of_neg]
      · exact ih h2
      · simp [hkb]

theorem find?_append_fresh (chs : List (Nat × String)) (n : Nat) (b : String)
    (h : chs.any (fun kv => kv.1 == n) = false) :
    (chs ++ [(n, b)]).find? (fun kv => kv.1 == n) = some (n, b) := by
  induction chs with
  | nil => simp [List.find?]
  | cons kv rest ih =>
    simp only [List.any_cons, Bool.or_eq_false_iff] at h
    rw [List.cons_append, List.find?_cons_of_neg]
    · exact ih h.2
    · simp [h.1]

theorem storeGet_put (chs : List (Nat × String)) (n : Nat) (b : String) :
    storeGet (putChapter chs n b) n = some b := by
  unfold storeGet putChapter
  by_cases h : (chs.any fun kv => kv.1 == n) = true
  · rw [if_pos h, find?_replace chs n b h]
    rfl
  · rw [if_neg h]
    rw [Bool.not_eq_true] at h
    rw [find?_append_fresh chs n b h]
    rfl

theorem find?_isSome_of_mem (chs : List (Nat × String)) (n : Nat)
    (h : n ∈ chs.map Prod.fst) :
    (chs.find? (fun kv => kv.1 == n)).isSome = true := by
  induction chs with
  | nil => simp at h
  | cons kv rest ih =>
    simp only [List.map_cons, List.mem_cons] at h
    by_cases hk : kv.1 = n
    · simp [List.find?_cons, hk]
    · have h2 : n ∈ rest.map Prod.fst := by
        rcases h with h | h
        · exact absurd h.symm hk
        · exact h
      have h3 := ih h2
      simp only [List.find?_cons]
      rw [show (kv.1 == n) = false from beq_eq_false_iff_ne.mpr hk]
      exact h3

theorem storeGet_isSome_of_mem (chs : List (Nat × String)) (n : Nat)
    (h : n ∈ chs.map Prod.fst) : (storeGet chs n).isSome = true := by
  obtain ⟨kv, hkv⟩ := Option.isSome_iff_exists.mp (find?_isSome_of_mem chs n h)
  unfold storeGet
  rw [hkv]
  rfl

theorem natsFrom_length (n : Nat) : ∀ s, (natsFrom s n).length = n := by
  induction n with
  | zero => intro s; rfl
  | succ n ih => intro s; simp [natsFrom, ih]

theorem natsFrom_snoc (n : Nat) : ∀ s, natsFrom s (n + 1) = natsFrom s n ++ [s + n + 1] := by
  induction n with
  | zero => intro s; rfl
  | succ n ih =>
    intro s
    have harith : s + 1 + n + 1 = s + (n + 1) + 1 := by omega
    calc natsFrom s (n + 1 + 1)
        = (s + 1) :: natsFrom (s + 1) (n + 1) := rfl
      _ = (s + 1) :: (natsFrom (s + 1) n ++ [s + 1 + n + 1]) := by rw [ih (s + 1)]
      _ = (s + 1) :: (natsFrom (s + 1) n ++ [s + (n + 1) + 1]) := by rw [harith]
      _ = natsFrom s (n + 1) ++ [s + (n + 1) + 1] := rfl

theorem natsFrom_mem_le (n : Nat) : ∀ s x, x ∈ natsFrom s n → x ≤ s + n := by
  induction n with
  | zero => intro s x h; simp [natsFrom] at h
  | succ n ih =>
    intro s x h
    simp only [natsFrom, List.mem_cons] at h
    rcases h with h | h
    · omega
    · have := ih (s + 1) x h
      omega

theorem natsFrom_mem (n : Nat) : ∀ s m, s + 1 ≤ m → m ≤ s + n → m ∈ natsFrom s n := by
  induction n with
  | zero => intro s m h1 h2; omega
  | succ n ih =>
    intro s m h1 h2
    simp only [natsFrom, List.mem_cons]
    by_cases hm : m = s + 1
    · exact Or.inl hm
    · exact Or.inr (ih (s + 1) m (by omega) (by omega))

theorem any_keys_eq (chs : List (Nat × String)) (n : Nat) :
    chs.any (fun kv => kv.1 == n) = (chs.map Prod.fst).any (fun k => k == n) := by
  induction chs with
  | nil => rfl
  | cons kv rest ih => simp [List.any_cons, ih]

theorem keys_any_fresh (chs : List (Nat × String)) (c : Nat)
    (h : chs.map Prod.fst = natsFrom 0 c) :
    chs.any (fun kv => kv.1 == c + 1) = false := by
  have hr : ((natsFrom 0 c).any (fun k => k == c + 1)) = false := by
    cases hany : (natsFrom 0 c).any (fun k => k == c + 1) with
    | false => rfl
    | true =>
      obtain ⟨x, hx, hxe⟩ := List.any_eq_true.mp hany
      have := natsFrom_mem_le c 0 x hx
      rw [beq_iff_eq] at hxe
      omega
  rw [any_keys_eq, h, hr]

theorem putChapter_fresh (chs : List (Nat × String)) (c : Nat) (b : String)
    (h : chs.map Prod.fst = natsFrom 0 c) :
    putChapter chs (c + 1) b = chs ++ [(c + 1, b)] := by
  unfold putChapter
  simp [keys_any_fresh chs c h]

theorem keys_after_put (chs : List (Nat × String)) (c : Nat) (b : String)
    (h : chs.map Prod.fst = natsFrom 0 c) :
    (putChapter chs (c + 1) b).map Prod.fst = natsFrom 0 (c + 1) := by
  rw [putChapter_fresh chs c b h, natsFrom_snoc, List.map_append, h]
  simp

/- ===================== Claim theorems: control surface ===================== -/

/-- C6: after Reset completes, `list_chapters()` returns the empty
sequence, `status()` reports chapter count 0 and zero errors, the
error log is empty, and a subsequent `get_chapter(1)` returns the
not-found result. -/
theorem c6_reset_clears (sys : Sys) :
    list_chapters (reset sys) = [] ∧
    status (reset sys) = ⟨false, 0, "Reset", 0⟩ ∧
    (reset sys).errors = [] ∧
    get_chapter (reset sys) 1 = none :=
  ⟨rfl, rfl, rfl, rfl⟩

/-- C7 counterexample: calling Stop on a non-running system is not a
no-op — `stop` rewrites `last_action` from "Idle" to "Paused" (and
appends a persistence call), so the resulting state differs. -/
theorem c7_counterexample :
    sysIdle.st.running = false ∧
    stop sysIdle ≠ sysIdle ∧
    (stop sysIdle).st.last_action = "Paused" ∧
    sysIdle.st.last_action = "Idle" := by
  refine ⟨rfl, ?_, rfl, rfl⟩
  decide

/-- C7 amended: calling Stop when the worker is not running leaves
`running` false and does not alter `chapter`, `current_url`, `visited`,
the chapter store or the error log; it does, however, set `last_action`
to "Paused" and persist the state. -/
theorem c7_stop_not_running_frame (sys : Sys) (h : sys.st.running = false) :
    (stop sys).st.running = false ∧
    (stop sys).st.chapter = sys.st.chapter ∧
    (stop sys).st.current_url = sys.st.current_url ∧
    (stop sys).st.visited = sys.st.visited ∧
    (stop sys).chapters = sys.chapters ∧
    (stop sys).errors = sys.errors ∧
    (stop sys).st.last_action = "Paused" ∧
    (stop sys).trace = sys.trace ++
      [Ev.persistState { sys.st with running := false, last_action := "Paused" } sys.chapters] := by
  simp [stop]

/-- Witness for the amended C7 at the concrete idle state. -/
theorem c7_stop_not_running_frame_witness :
    sysIdle.st.running = false ∧
    (stop sysIdle).st.chapter = sysIdle.st.chapter ∧
    (stop sysIdle).chapters = sysIdle.chapters := by
  have h := c7_stop_not_running_frame sysIdle rfl
  exact ⟨rfl, h.2.1, h.2.2.2.2.1⟩

/-- C8 counterexample: the Translator's returned string is not trimmed —
for the model response " Hello. " the source's `translate` returns the
response verbatim, which differs from its trimmed form. -/
theorem c8_counterexample :
    translate " Hello. " = " Hello. " ∧
    strTrim " Hello. " = "Hello." ∧
    translate " Hello. " ≠ strTrim " Hello. " := by
  refine ⟨rfl, by decide, by decide⟩

/-- C8 amended: for every model response, the Translator returns the
response verbatim — no trimming of surrounding whitespace is applied,
so whenever the response carries surrounding whitespace the returned
string differs from its trimmed form. -/
theorem c8_translate_verbatim (content : String) :
    translate content = content ∧
    (strTrim content ≠ content → translate content ≠ strTrim content) :=
  ⟨rfl, fun h hc => h hc.symm⟩

/-- Witness for the amended C8 at a concrete whitespace-carrying
response. -/
theorem c8_translate_verbatim_witness :
    translate " Hello. " = " Hello. " ∧
    translate " Hello. " ≠ strTrim " Hello. " :=
  ⟨(c8_translate_verbatim " Hello. ").1,
   (c8_translate_verbatim " Hello. ").2 (by decide)⟩

/-- C9: the stored chapter body is exactly the concatenation, over the
`"\n\n"`-separated fragments of the text in order, of
`"<p>" ++ fragment ++ "</p>"`, each fragment embedded verbatim; the
empty text yields `"<p></p>"`, and markup contained in the text appears
unescaped in the stored document. -/
theorem c9_save_renders_paragraphs (chs : List (Nat × String)) (n : Nat) (t : String) :
    storeGet (save_chapter chs n t) n = some (wrapParas (pySplit t "\n\n")) ∧
    renderBody "" = "<p></p>" ∧
    renderBody "a<i>b" = "<p>a<i>b</p>" := by
  refine ⟨?_, by decide, by decide⟩
  rw [save_chapter, storeGet_put, renderBody_eq_wrapParas]

/-- C10: starting with no supplied URL while `current_url` is null is a
no-op — the handler returns before mutating anything or persisting, and
no worker thread is spawned. -/
theorem c10_start_no_url_no_op (sys : Sys) (h : sys.st.current_url = none) :
    start sys none = (sys, false) := by
  unfold start
  simp [h]

/-- Witness for C10 at a concrete state with a null frontier. -/
theorem c10_start_no_url_no_op_witness :
    start (reset sysIdle) none = (reset sysIdle, false) :=
  c10_start_no_url_no_op (reset sysIdle) rfl

/- ===================== Worker step lemmas ===================== -/

theorem step_not_running (env : Env) (sys : Sys) (h : sys.st.running = false) :
    step env sys = (sys, false) := by
  unfold step
  rw [h]

theorem step_no_url (env : Env) (sys : Sys) (h : sys.st.current_url = none) :
    step env sys = (sys, false) := by
  unfold step
  rw [h]
  cases sys.st.running <;> rfl

theorem step_empty_url (env : Env) (sys : Sys) (url : String)
    (hcur : sys.st.current_url = some url) (hne : (url == "") = true) :
    step env sys = (sys, false) := by
  unfold step
  rw [hcur]
  cases hr : sys.st.running
  · rfl
  · simp [hne]

theorem step_dup (env : Env) (sys : Sys) (url : String)
    (hrun : sys.st.running = true) (hcur : sys.st.current_url = some url)
    (hne : (url == "") = false) (hvis : sys.st.visited.contains url = true) :
    step env sys =
      ({ sys with
           st := { sys.st with running := false, last_action := dupMsg }
           trace := sys.trace ++
             [Ev.persistState { sys.st with running := false, last_action := dupMsg }
               sys.chapters] },
       false) := by
  have hm : url ∈ sys.st.visited := by simpa using hvis
  unfold step
  rw [hrun, hcur]
  simp [hne, hvis, hm, hrun, hcur]

theorem step_fetch_err (env : Env) (sys : Sys) (url msg : String)
    (hrun : sys.st.running = true) (hcur : sys.st.current_url = some url)
    (hne : (url == "") = false) (hvis : sys.st.visited.contains url = false)
    (hf : env.fetch url = .error msg) :
    step env sys = (errPath (fetchingSys sys url) url msg, false) := by
  have hm : url ∉ sys.st.visited := by simpa using hvis
  unfold step fetchingSys
  rw [hrun, hcur]
  simp [hne, hvis, hm, hrun, hcur, hf]

theorem step_translate_err (env : Env) (sys : Sys) (url raw msg : String)
    (next : Option String)
    (hrun : sys.st.running = true) (hcur : sys.st.current_url = some url)
    (hne : (url == "") = false) (hvis : sys.st.visited.contains url = false)
    (hf : env.fetch url = .ok (raw, next))
    (ht : env.translate raw = .error msg) :
    step env sys = (errPath (translatingSys sys url raw) url msg, false) := by
  have hm : url ∉ sys.st.visited := by simpa using hvis
  unfold step translatingSys fetchingSys
  rw [hrun, hcur]
  simp [hne, hvis, hm, hrun, hcur, hf, ht, List.append_assoc]

theorem step_save_err (env : Env) (sys : Sys) (url raw content e : String)
    (next : Option String)
    (hrun : sys.st.running = true) (hcur : sys.st.current_url = some url)
    (hne : (url == "") = false) (hvis : sys.st.visited.contains url = false)
    (hf : env.fetch url = .ok (raw, next))
    (ht : env.translate raw = .ok content)
    (hsv : env.save (sys.st.chapter + 1) (renderBody (translate content)) = some e) :
    step env sys = (errPath (savingSys sys url raw content) url e, false) := by
  have hm : url ∉ sys.st.visited := by simpa using hvis
  unfold step savingSys
  rw [hrun, hcur]
  simp [hne, hvis, hm, hrun, hcur, hf, ht, hsv, List.append_assoc]

theorem step_ok_cont (env : Env) (sys : Sys) (url raw content nu : String)
    (hrun : sys.st.running = true) (hcur : sys.st.current_url = some url)
    (hne : (url == "") = false) (hvis : sys.st.visited.contains url = false)
    (hf : env.fetch url = .ok (raw, some nu))
    (ht : env.translate raw = .ok content)
    (hsv : env.save (sys.st.chapter + 1) (renderBody (translate content)) = none)
    (hnu : (nu == "") = false) :
    step env sys = (savedSys sys url raw content (some nu), true) := by
  have hm : url ∉ sys.st.visited := by simpa using hvis
  unfold step savedSys
  rw [hrun, hcur]
  simp [hne, hvis, hm, hrun, hcur, hf, ht, hsv, hnu, List.append_assoc]

theorem step_ok_last (env : Env) (sys : Sys) (url raw content : String)
    (hrun : sys.st.running = true) (hcur : sys.st.current_url = some url)
    (hne : (url == "") = false) (hvis : sys.st.visited.contains url = false)
    (hf : env.fetch url = .ok (raw, none))
    (ht : env.translate raw = .ok content)
    (hsv : env.save (sys.st.chapter + 1) (renderBody (translate content)) = none) :
    step env sys = (completePath (savedSys sys url raw content none), false) := by
  have hm : url ∉ sys.st.visited := by simpa using hvis
  unfold step savedSys completePath
  rw [hrun, hcur]
  simp [hne, hvis, hm, hrun, hcur, hf, ht, hsv, List.append_assoc]

theorem step_ok_empty_next (env : Env) (sys : Sys) (url raw content nu : String)
    (hrun : sys.st.running = true) (hcur : sys.st.current_url = some url)
    (hne : (url == "") = false) (hvis : sys.st.visited.contains url = false)
    (hf : env.fetch url = .ok (raw, some nu))
    (ht : env.translate raw = .ok content)
    (hsv : env.save (sys.st.chapter + 1) (renderBody (translate content)) = none)
    (hnu : (nu == "") = true) :
    step env sys = (completePath (savedSys sys url raw content (some nu)), false) := by
  have hm : url ∉ sys.st.visited := by simpa using hvis
  unfold step savedSys completePath
  rw [hrun, hcur]
  simp [hne, hvis, hm, hrun, hcur, hf, ht, hsv, hnu, List.append_assoc]

theorem worker_zero (env : Env) (sys : Sys) : worker env 0 sys = sys := rfl

theorem worker_halt (env : Env) (fuel : Nat) (sys s1 : Sys)
    (h : step env sys = (s1, false)) : worker env (fuel + 1) sys = s1 := by
  unfold worker
  rw [h]

theorem worker_cont (env : Env) (fuel : Nat) (sys s1 : Sys)
    (h : step env sys = (s1, true)) :
    worker env (fuel + 1) sys = worker env fuel s1 := by
  simp only [worker]
  rw [h]

/- ===================== Claim theorems: worker safety ===================== -/

/-- C4: when the frontier URL is already in the visited set, the worker
halts within that iteration — `running` becomes false, the
duplicate-detected status is recorded, the chapter counter, the chapter
store and the error log are untouched, and the only new event is the
one state persistence: no Extractor, Translator or Store call
happens. -/
theorem c4_duplicate_halts (env : Env) (fuel : Nat) (sys : Sys) (url : String)
    (hrun : sys.st.running = true)
    (hcur : sys.st.current_url = some url)
    (hne : url ≠ "")
    (hvis : sys.st.visited.contains url = true) :
    (worker env (fuel + 1) sys).st.running = false ∧
    (worker env (fuel + 1) sys).st.last_action = dupMsg ∧
    (worker env (fuel + 1) sys).st.chapter = sys.st.chapter ∧
    (worker env (fuel + 1) sys).chapters = sys.chapters ∧
    (worker env (fuel + 1) sys).errors = sys.errors ∧
    (worker env (fuel + 1) sys).trace = sys.trace ++
      [Ev.persistState { sys.st with running := false, last_action := dupMsg }
        sys.chapters] ∧
    ((worker env (fuel + 1) sys).trace.drop sys.trace.length).all
      (fun e => !isCallEv e) = true := by
  have hs := step_dup env sys url hrun hcur (beq_eq_false_iff_ne.mpr hne) hvis
  rw [worker_halt env fuel sys _ hs]
  refine ⟨rfl, rfl, rfl, rfl, rfl, rfl, ?_⟩
  rw [show ({ sys with
        st := { sys.st with running := false, last_action := dupMsg }
        trace := sys.trace ++
          [Ev.persistState { sys.st with running := false, last_action := dupMsg }
            sys.chapters] } : Sys).trace = sys.trace ++
          [Ev.persistState { sys.st with running := false, last_action := dupMsg }
            sys.chapters] from rfl]
  rw [List.drop_left]
  rfl

/-- Witness for C4 at a concrete system whose frontier URL was already
visited. -/
theorem c4_duplicate_halts_witness :
    (worker envA 1 sysDup).st.running = false ∧
    (worker envA 1 sysDup).st.chapter = sysDup.st.chapter ∧
    (worker envA 1 sysDup).chapters = sysDup.chapters ∧
    (worker envA 1 sysDup).errors = sysDup.errors := by
  have h := c4_duplicate_halts envA 0 sysDup "A" rfl rfl (by decide) (by decide)
  exact ⟨h.1, h.2.2.1, h.2.2.2.1, h.2.2.2.2.1⟩

/-- C5: if the Extractor fails while attempting chapter
`chapter_count + 1`, the worker stops with the store untouched (all
previously saved chapters remain readable), the counter unchanged,
`running` false, and exactly one error record appended carrying the
attempted chapter number, the URL and the message. -/
theorem c5_extractor_failure_isolation (env : Env) (fuel : Nat) (sys : Sys)
    (url msg : String)
    (hrun : sys.st.running = true)
    (hcur : sys.st.current_url = some url)
    (hne : url ≠ "")
    (hvis : sys.st.visited.contains url = false)
    (hf : env.fetch url = .error msg)
    (hkeys : keysRange sys) :
    (worker env (fuel + 1) sys).chapters = sys.chapters ∧
    (worker env (fuel + 1) sys).st.chapter = sys.st.chapter ∧
    (worker env (fuel + 1) sys).st.running = false ∧
    (worker env (fuel + 1) sys).st.last_action = "Error occurred" ∧
    (worker env (fuel + 1) sys).errors =
      sys.errors ++ [⟨sys.st.chapter + 1, url, msg⟩] ∧
    (∀ n, get_chapter (worker env (fuel + 1) sys) n = get_chapter sys n) ∧
    (∀ n, 1 ≤ n → n ≤ sys.st.chapter →
      (get_chapter (worker env (fuel + 1) sys) n).isSome = true) := by
  have hs := step_fetch_err env sys url msg hrun hcur (beq_eq_false_iff_ne.mpr hne) hvis hf
  rw [worker_halt env fuel sys _ hs]
  have hk2 : sys.chapters.map Prod.fst = natsFrom 0 sys.st.chapter := hkeys
  refine ⟨rfl, rfl, rfl, rfl, rfl, fun n => rfl, fun n h1 h2 => ?_⟩
  have hmem : n ∈ sys.chapters.map Prod.fst := by
    rw [hk2]
    exact natsFrom_mem sys.st.chapter 0 n (by omega) (by omega)
  exact storeGet_isSome_of_mem sys.chapters n hmem

/-- Witness for C5 at a concrete one-chapter system whose next fetch
fails. -/
theorem c5_extractor_failure_isolation_witness :
    (worker envFail 1 sysErr).st.chapter = 1 ∧
    (worker envFail 1 sysErr).errors = [⟨2, "B", "Content not found"⟩] ∧
    (get_chapter (worker envFail 1 sysErr) 1).isSome = true := by
  have h := c5_extractor_failure_isolation envFail 0 sysErr "B" "Content not found"
    rfl rfl (by decide) (by decide) rfl rfl
  exact ⟨h.2.1, h.2.2.2.2.1, h.2.2.2.2.2.2 1 (by decide) (by decide)⟩

/- ===================== C2: persisted-counter invariant ===================== -/

theorem keysRange_length (sys : Sys) (h : keysRange sys) :
    sys.chapters.length = sys.st.chapter := by
  have h2 : sys.chapters.map Prod.fst = natsFrom 0 sys.st.chapter := h
  have h3 := congrArg List.length h2
  simpa [natsFrom_length] using h3

theorem savedSys_keys (sys : Sys) (url raw content : String) (next : Option String)
    (h1 : keysRange sys) : keysRange (savedSys sys url raw content next) := by
  show (save_chapter sys.chapters (sys.st.chapter + 1) (translate content)).map Prod.fst
    = natsFrom 0 (sys.st.chapter + 1)
  exact keys_after_put sys.chapters sys.st.chapter (renderBody (translate content)) h1

theorem savedSys_all (sys : Sys) (url raw content : String) (next : Option String)
    (h1 : keysRange sys) (h2 : sys.trace.all persistEvOkB = true) :
    (savedSys sys url raw content next).trace.all persistEvOkB = true := by
  have hlen := keysRange_length sys h1
  have hlen2 : (save_chapter sys.chapters (sys.st.chapter + 1) (translate content)).length
      = sys.st.chapter + 1 := by
    have := keysRange_length (savedSys sys url raw content next)
      (savedSys_keys sys url raw content next h1)
    exact this
  show (sys.trace ++ _).all persistEvOkB = true
  rw [List.all_append, h2]
  simp [persistEvOkB, hlen, hlen2]

theorem completePath_all (s : Sys) (h1 : keysRange s)
    (h2 : s.trace.all persistEvOkB = true) :
    (completePath s).trace.all persistEvOkB = true := by
  have hlen := keysRange_length s h1
  show (s.trace ++ _).all persistEvOkB = true
  rw [List.all_append, h2]
  simp [persistEvOkB, hlen]

theorem errPath_all (s : Sys) (url msg : String) (h1 : keysRange s)
    (h2 : s.trace.all persistEvOkB = true) :
    (errPath s url msg).trace.all persistEvOkB = true := by
  have hlen := keysRange_length s h1
  show (s.trace ++ _).all persistEvOkB = true
  rw [List.all_append, h2]
  simp [persistEvOkB, hlen]

theorem fetchingSys_all (sys : Sys) (url : String) (h1 : keysRange sys)
    (h2 : sys.trace.all persistEvOkB = true) :
    (fetchingSys sys url).trace.all persistEvOkB = true := by
  have hlen := keysRange_length sys h1
  show (sys.trace ++ _).all persistEvOkB = true
  rw [List.all_append, h2]
  simp [persistEvOkB, hlen]

theorem translatingSys_all (sys : Sys) (url raw : String) (h1 : keysRange sys)
    (h2 : sys.trace.all persistEvOkB = true) :
    (translatingSys sys url raw).trace.all persistEvOkB = true := by
  show ((fetchingSys sys url).trace ++ _).all persistEvOkB = true
  rw [List.all_append, fetchingSys_all sys url h1 h2]
  simp [persistEvOkB]

theorem step_preserves (env : Env) (hsave : saveOk env) (sys : Sys)
    (h1 : keysRange sys) (h2 : sys.trace.all persistEvOkB = true) :
    keysRange (step env sys).1 ∧ (step env sys).1.trace.all persistEvOkB = true := by
  have hlen := keysRange_length sys h1
  cases hrun : sys.st.running with
  | false => rw [step_not_running env sys hrun]; exact ⟨h1, h2⟩
  | true =>
    cases hcur : sys.st.current_url with
    | none => rw [step_no_url env sys hcur]; exact ⟨h1, h2⟩
    | some url =>
      cases hne : url == "" with
      | true => rw [step_empty_url env sys url hcur hne]; exact ⟨h1, h2⟩
      | false =>
        cases hvis : sys.st.visited.contains url with
        | true =>
          rw [step_dup env sys url hrun hcur hne hvis]
          refine ⟨h1, ?_⟩
          show (sys.trace ++ _).all persistEvOkB = true
          rw [List.all_append, h2]
          simp [persistEvOkB, hlen]
        | false =>
          cases hf : env.fetch url with
          | error msg =>
            rw [step_fetch_err env sys url msg hrun hcur hne hvis hf]
            exact ⟨h1, errPath_all (fetchingSys sys url) url msg h1
              (fetchingSys_all sys url h1 h2)⟩
          | ok pr =>
            obtain ⟨raw, next⟩ := pr
            cases ht : env.translate raw with
            | error msg =>
              rw [step_translate_err env sys url raw msg next hrun hcur hne hvis hf ht]
              exact ⟨h1, errPath_all (translatingSys sys url raw) url msg h1
                (translatingSys_all sys url raw h1 h2)⟩
            | ok content =>
              have hsv := hsave (sys.st.chapter + 1) (renderBody (translate content))
              cases next with
              | none =>
                rw [step_ok_last env sys url raw content hrun hcur hne hvis hf ht hsv]
                exact ⟨savedSys_keys sys url raw content none h1,
                  completePath_all (savedSys sys url raw content none)
                    (savedSys_keys sys url raw content none h1)
                    (savedSys_all sys url raw content none h1 h2)⟩
              | some nu =>
                cases hnu : nu == "" with
                | true =>
                  rw [step_ok_empty_next env sys url raw content nu hrun hcur hne hvis hf ht hsv hnu]
                  exact ⟨savedSys_keys sys url raw content (some nu) h1,
                    completePath_all (savedSys sys url raw content (some nu))
                      (savedSys_keys sys url raw content (some nu) h1)
                      (savedSys_all sys url raw content (some nu) h1 h2)⟩
                | false =>
                  rw [step_ok_cont env sys url raw content nu hrun hcur hne hvis hf ht hsv hnu]
                  exact ⟨savedSys_keys sys url raw content (some nu) h1,
                    savedSys_all sys url raw content (some nu) h1 h2⟩

theorem worker_preserves (env : Env) (hsave : saveOk env) : ∀ (fuel : Nat) (sys : Sys),
    keysRange sys → sys.trace.all persistEvOkB = true →
    keysRange (worker env fuel sys) ∧
    (worker env fuel sys).trace.all persistEvOkB = true := by
  intro fuel
  induction fuel with
  | zero => intro sys h1 h2; exact ⟨h1, h2⟩
  | succ n ih =>
    intro sys h1 h2
    have hp := step_preserves env hsave sys h1 h2
    rcases hs : step env sys with ⟨s1, b⟩
    rw [hs] at hp
    cases b with
    | true =>
      rw [worker_cont env n sys s1 hs]
      exact ih s1 hp.1 hp.2
    | false =>
      rw [worker_halt env n sys s1 hs]
      exact hp

/-- C2 counterexample: the claimed invariant fails on the error path of
a storage failure.  When `put_object` raises inside `save_chapter`
(src/app.py line 141), the counter was already incremented (line 140),
so the handler's persistence (line 167) writes a state whose counter
exceeds the number of chapters saved in the store by one: on a
concrete fresh run, the error-path `persistState` event carries
counter 1 over an empty store. -/
theorem c2_counterexample :
    (worker envSaveFail 1 (initSys "A")).trace.all persistEvOkB = false ∧
    (worker envSaveFail 1 (initSys "A")).trace[5]? =
      some (Ev.persistState
        { running := false, current_url := some "A", chapter := 1,
          visited := [], last_action := "Error occurred" } []) ∧
    (worker envSaveFail 1 (initSys "A")).st.chapter = 1 ∧
    (worker envSaveFail 1 (initSys "A")).chapters = [] := by
  refine ⟨by decide, by decide, by decide, by decide⟩

/-- C2 amended: provided the store writes themselves succeed, in every
crawl state persisted by worker iterations — including the
persistences on the fetch- and translation-failure error paths — the
chapter counter equals the number of chapters saved in the store at
the moment of the persistence call.  (A storage failure inside
`save_chapter` is raised after the counter increment, and the
subsequent error-path persistence reports a counter one above the
store size.) -/
theorem c2_persisted_counter_matches_store (env : Env) (fuel : Nat) (sys : Sys)
    (hsave : saveOk env) (h1 : keysRange sys)
    (h2 : sys.trace.all persistEvOkB = true) :
    (worker env fuel sys).trace.all persistEvOkB = true :=
  (worker_preserves env hsave fuel sys h1 h2).2

/-- Witness for the amended C2 on a concrete fetch-failing run from a
fresh system. -/
theorem c2_persisted_counter_matches_store_witness :
    (worker envFail 1 (initSys "A")).trace.all persistEvOkB = true :=
  c2_persisted_counter_matches_store envFail 1 (initSys "A") (fun _ _ => rfl) rfl rfl

/- ===================== C3: fetch-persist ordering ===================== -/

theorem seamJoinB_cons_cons (a a2 : Ev) (t2 b : List Ev) :
    seamJoinB (a :: a2 :: t2) b = seamJoinB (a2 :: t2) b := by
  unfold seamJoinB
  rw [List.getLast?_cons_cons]

theorem seamOkB_append (b : List Ev) : ∀ t : List Ev,
    seamOkB (t ++ b) = (seamOkB t && seamJoinB t b && seamOkB b) := by
  intro t
  induction t with
  | nil => simp [seamOkB, seamJoinB]
  | cons a t ih =>
    cases t with
    | nil =>
      cases b with
      | nil => simp [seamOkB, seamJoinB]
      | cons c b2 =>
        show seamOkB (a :: c :: b2) = _
        rw [show seamOkB (a :: c :: b2) = (fetchSeamB a c && seamOkB (c :: b2)) from rfl]
        rw [show seamOkB [a] = true from rfl]
        rw [show seamJoinB [a] (c :: b2) = fetchSeamB a c from rfl]
        simp
    | cons a2 t2 =>
      show seamOkB (a :: a2 :: (t2 ++ b)) = _
      rw [show seamOkB (a :: a2 :: (t2 ++ b))
          = (fetchSeamB a a2 && seamOkB (a2 :: (t2 ++ b))) from rfl]
      rw [show (a2 :: (t2 ++ b)) = ((a2 :: t2) ++ b) from rfl, ih]
      rw [seamJoinB_cons_cons]
      rw [show seamOkB (a :: a2 :: t2) = (fetchSeamB a a2 && seamOkB (a2 :: t2)) from rfl]
      simp [Bool.and_assoc]

theorem headNotFetchB_append (t b : List Ev) (h1 : headNotFetchB t = true)
    (h2 : headNotFetchB b = true) : headNotFetchB (t ++ b) = true := by
  cases t with
  | nil => simpa using h2
  | cons a t2 => cases a <;> exact h1

theorem guard_append_block (t : List Ev) (s : St) (chs : List (Nat × String))
    (rest : List Ev)
    (h : fetchGuardedB t = true)
    (hb : seamOkB (Ev.persistState s chs :: rest) = true) :
    fetchGuardedB (t ++ Ev.persistState s chs :: rest) = true := by
  unfold fetchGuardedB at h ⊢
  rw [Bool.and_eq_true] at h
  rw [Bool.and_eq_true]
  refine ⟨headNotFetchB_append t _ h.1 rfl, ?_⟩
  rw [seamOkB_append, h.2, hb]
  have hj : seamJoinB t (Ev.persistState s chs :: rest) = true := by
    unfold seamJoinB
    rcases hgl : t.getLast? with _ | a
    · rfl
    · rfl
  rw [hj]
  rfl

theorem step_guard (env : Env) (sys : Sys)
    (h : fetchGuardedB sys.trace = true) :
    fetchGuardedB (step env sys).1.trace = true := by
  cases hrun : sys.st.running with
  | false => rw [step_not_running env sys hrun]; exact h
  | true =>
    cases hcur : sys.st.current_url with
    | none => rw [step_no_url env sys hcur]; exact h
    | some url =>
      cases hne : url == "" with
      | true => rw [step_empty_url env sys url hcur hne]; exact h
      | false =>
        cases hvis : sys.st.visited.contains url with
        | true =>
          rw [step_dup env sys url hrun hcur hne hvis]
          exact guard_append_block sys.trace _ _ _ h rfl
        | false =>
          have hm : url ∉ sys.st.visited := by simpa using hvis
          cases hf : env.fetch url with
          | error msg =>
            rw [step_fetch_err env sys url msg hrun hcur hne hvis hf]
            show fetchGuardedB ((sys.trace ++ _) ++ _) = true
            rw [List.append_assoc]
            refine guard_append_block sys.trace _ _ _ h ?_
            simp [seamOkB, fetchSeamB, hvis, hm]
          | ok pr =>
            obtain ⟨raw, next⟩ := pr
            cases ht : env.translate raw with
            | error msg =>
              rw [step_translate_err env sys url raw msg next hrun hcur hne hvis hf ht]
              show fetchGuardedB (((sys.trace ++ _) ++ _) ++ _) = true
              rw [List.append_assoc, List.append_assoc]
              refine guard_append_block sys.trace _ _ _ h ?_
              simp [seamOkB, fetchSeamB, hvis, hm]
            | ok content =>
              cases hsv : env.save (sys.st.chapter + 1) (renderBody (translate content)) with
              | some e =>
                rw [step_save_err env sys url raw content e next hrun hcur hne hvis hf ht hsv]
                show fetchGuardedB ((sys.trace ++ _) ++ _) = true
                rw [List.append_assoc]
                refine guard_append_block sys.trace _ _ _ h ?_
                simp [seamOkB, fetchSeamB, hvis, hm]
              | none =>
                cases next with
                | none =>
                  rw [step_ok_last env sys url raw content hrun hcur hne hvis hf ht hsv]
                  show fetchGuardedB ((sys.trace ++ _) ++ _) = true
                  rw [List.append_assoc]
                  refine guard_append_block sys.trace _ _ _ h ?_
                  simp [seamOkB, fetchSeamB, hvis, hm]
                | some nu =>
                  cases hnu : nu == "" with
                  | true =>
                    rw [step_ok_empty_next env sys url raw content nu hrun hcur hne hvis hf ht hsv hnu]
                    show fetchGuardedB ((sys.trace ++ _) ++ _) = true
                    rw [List.append_assoc]
                    refine guard_append_block sys.trace _ _ _ h ?_
                    simp [seamOkB, fetchSeamB, hvis, hm]
                  | false =>
                    rw [step_ok_cont env sys url raw content nu hrun hcur hne hvis hf ht hsv hnu]
                    refine guard_append_block sys.trace _ _ _ h ?_
                    simp [seamOkB, fetchSeamB, hvis, hm]

theorem worker_guard (env : Env) : ∀ (fuel : Nat) (sys : Sys),
    fetchGuardedB sys.trace = true →
    fetchGuardedB (worker env fuel sys).trace = true := by
  intro fuel
  induction fuel with
  | zero => intro sys h; exact h
  | succ n ih =>
    intro sys h
    have hp := step_guard env sys h
    rcases hs : step env sys with ⟨s1, b⟩
    rw [hs] at hp
    cases b with
    | true =>
      rw [worker_cont env n sys s1 hs]
      exact ih s1 hp
    | false =>
      rw [worker_halt env n sys s1 hs]
      exact hp

/-- C3 counterexample: the original ordering claim fails on the code —
on a concrete one-page run, the fetch of URL "A" begins right after a
state persistence whose `visited` set is still empty, so the fetched
URL is not a member of the persisted visited set when the Extractor is
invoked (the source appends to `visited` only after the chapter is
saved, src/app.py line 143). -/
theorem c3_counterexample :
    (worker envA 1 (initSys "A")).trace[0]? =
      some (Ev.persistState
        { running := true, current_url := some "A", chapter := 0,
          visited := [], last_action := "Fetching chapter 1" } []) ∧
    (worker envA 1 (initSys "A")).trace[1]? =
      some (Ev.fetchCall "A"
        { running := true, current_url := some "A", chapter := 0,
          visited := [], last_action := "Fetching chapter 1" }) ∧
    ¬ ("A" ∈ (St.mk true (some "A") 0 [] "Fetching chapter 1").visited) := by
  refine ⟨by decide, by decide, by decide⟩

/-- C3 amended: in every worker iteration the state is persisted (with
the fetching status for the attempted chapter) immediately before the
Extractor is invoked, but the frontier URL is not yet a member of the
visited set at that moment — it is recorded into `visited` and
persisted only after the chapter has been successfully saved.  Hence
whenever a fetch begins, the URL being fetched is not a member of the
just-persisted visited set. -/
theorem c3_persist_before_fetch_url_unvisited (env : Env) (fuel : Nat) (sys : Sys)
    (h : fetchGuardedB sys.trace = true) :
    fetchGuardedB (worker env fuel sys).trace = true :=
  worker_guard env fuel sys h

/-- Witness for the amended C3 on a concrete complete run. -/
theorem c3_persist_before_fetch_url_unvisited_witness :
    fetchGuardedB (worker envA 1 (initSys "A")).trace = true :=
  c3_persist_before_fetch_url_unvisited envA 1 (initSys "A") rfl

/- ===================== C1: complete chain crawl ===================== -/

theorem contains_eq_false_of_not_mem (l : List String) (u : String) (h : u ∉ l) :
    l.contains u = false := by
  simpa using h

theorem chainFetch_append_of_not_mem (l2 : List Page) (u : String) :
    ∀ l1 : List Page, u ∉ l1.map Page.url →
    chainFetch (l1 ++ l2) u = chainFetch l2 u := by
  intro l1
  induction l1 with
  | nil => intro _; rfl
  | cons p rest ih =>
    intro h
    simp only [List.map_cons, List.mem_cons] at h
    push_neg at h
    have hne : (p.url == u) = false :=
      beq_eq_false_iff_ne.mpr (fun he => h.1 he.symm)
    show chainFetch (p :: (rest ++ l2)) u = _
    rw [show chainFetch (p :: (rest ++ l2)) u
        = (if p.url == u then Except.ok (p.text, ((rest ++ l2).head?).map Page.url)
           else chainFetch (rest ++ l2) u) from rfl, hne]
    simpa using ih h.2

theorem chainFetch_cons_self (p : Page) (rest : List Page) :
    chainFetch (p :: rest) p.url = .ok (p.text, (rest.head?).map Page.url) := by
  simp [chainFetch]

theorem expChapters_keys (tr : String → String) : ∀ (l : List Page) (s : Nat),
    (expChapters tr s l).map Prod.fst = natsFrom s l.length := by
  intro l
  induction l with
  | nil => intro s; rfl
  | cons p ps ih =>
    intro s
    simp [expChapters, natsFrom, ih (s + 1)]

theorem expChapters_snoc (tr : String → String) (p : Page) : ∀ (l : List Page) (s : Nat),
    expChapters tr s (l ++ [p])
      = expChapters tr s l ++ [(s + l.length + 1, renderBody (tr p.text))] := by
  intro l
  induction l with
  | nil => intro s; simp [expChapters]
  | cons q qs ih =>
    intro s
    have harith : s + 1 + qs.length + 1 = s + (qs.length + 1) + 1 := by omega
    calc expChapters tr s ((q :: qs) ++ [p])
        = (s + 1, renderBody (tr q.text)) :: expChapters tr (s + 1) (qs ++ [p]) := rfl
      _ = (s + 1, renderBody (tr q.text)) ::
            (expChapters tr (s + 1) qs ++ [(s + 1 + qs.length + 1, renderBody (tr p.text))]) := by
          rw [ih (s + 1)]
      _ = (s + 1, renderBody (tr q.text)) ::
            (expChapters tr (s + 1) qs ++ [(s + (qs.length + 1) + 1, renderBody (tr p.text))]) := by
          rw [harith]
      _ = expChapters tr s (q :: qs) ++ [(s + (q :: qs).length + 1, renderBody (tr p.text))] := by
          simp [expChapters]

theorem chainOk_split (done : List Page) (r : Page) (rest : List Page)
    (h : chainOk (done ++ r :: rest)) :
    r.url ∉ done.map Page.url ∧ r.url ≠ "" := by
  obtain ⟨hnd, hne⟩ := h
  constructor
  · rw [List.map_append, List.map_cons, List.nodup_append] at hnd
    exact fun hu => hnd.2.2 hu (List.mem_cons_self _ _)
  · exact hne r (by simp)

theorem saved_chapters_eq (tr : String → String) (done : List Page) (r : Page) :
    save_chapter (expChapters tr 0 done) (done.length + 1) (translate (tr r.text))
      = expChapters tr 0 (done ++ [r]) := by
  rw [save_chapter, show translate (tr r.text) = tr r.text from rfl,
    putChapter_fresh _ done.length _ (expChapters_keys tr done 0),
    expChapters_snoc]
  simp

theorem chainRun (tr : String → String) : ∀ (rest done : List Page) (r : Page)
    (fuel : Nat) (la : String) (trc : List Ev) (errs : List ErrRec),
    chainOk (done ++ r :: rest) → rest.length + 1 ≤ fuel →
    ((worker (chainEnv (done ++ r :: rest) tr) fuel (chainSys tr done r la trc errs)).st =
      { running := false
        current_url := none
        chapter := done.length + rest.length + 1
        visited := (done ++ r :: rest).map Page.url
        last_action := "Completed" } ∧
     (worker (chainEnv (done ++ r :: rest) tr) fuel (chainSys tr done r la trc errs)).chapters =
      expChapters tr 0 (done ++ r :: rest) ∧
     (worker (chainEnv (done ++ r :: rest) tr) fuel (chainSys tr done r la trc errs)).errors =
      errs) := by
  intro rest
  induction rest with
  | nil =>
    intro done r fuel la trc errs hok hfuel
    obtain ⟨f, rfl⟩ : ∃ f, fuel = f + 1 := ⟨fuel - 1, by omega⟩
    have hsp := chainOk_split done r [] hok
    have hne : (r.url == "") = false := beq_eq_false_iff_ne.mpr hsp.2
    have hvis : (chainSys tr done r la trc errs).st.visited.contains r.url = false :=
      contains_eq_false_of_not_mem _ _ hsp.1
    have hf : (chainEnv (done ++ r :: []) tr).fetch r.url = .ok (r.text, none) := by
      show chainFetch (done ++ r :: []) r.url = _
      rw [chainFetch_append_of_not_mem (r :: []) r.url done hsp.1, chainFetch_cons_self]
      rfl
    have ht : (chainEnv (done ++ r :: []) tr).translate r.text = .ok (tr r.text) := rfl
    have hs := step_ok_last (chainEnv (done ++ r :: []) tr) (chainSys tr done r la trc errs)
      r.url r.text (tr r.text) rfl rfl hne hvis hf ht rfl
    rw [worker_halt _ f _ _ hs]
    refine ⟨?_, ?_, rfl⟩
    · simp [completePath, savedSys, chainSys, List.map_append]
    · show save_chapter (expChapters tr 0 done) (done.length + 1) (translate (tr r.text))
        = expChapters tr 0 (done ++ r :: [])
      rw [saved_chapters_eq]
  | cons r2 rest2 ih =>
    intro done r fuel la trc errs hok hfuel
    obtain ⟨f, rfl⟩ : ∃ f, fuel = f + 1 := ⟨fuel - 1, by omega⟩
    have hsp := chainOk_split done r (r2 :: rest2) hok
    have hne : (r.url == "") = false := beq_eq_false_iff_ne.mpr hsp.2
    have hvis : (chainSys tr done r la trc errs).st.visited.contains r.url = false :=
      contains_eq_false_of_not_mem _ _ hsp.1
    have hf : (chainEnv (done ++ r :: r2 :: rest2) tr).fetch r.url
        = .ok (r.text, some r2.url) := by
      show chainFetch (done ++ r :: r2 :: rest2) r.url = _
      rw [chainFetch_append_of_not_mem (r :: r2 :: rest2) r.url done hsp.1,
        chainFetch_cons_self]
      rfl
    have ht : (chainEnv (done ++ r :: r2 :: rest2) tr).translate r.text
        = .ok (tr r.text) := rfl
    have hr2 : r2.url ≠ "" := hok.2 r2 (by simp)
    have hnu : (r2.url == "") = false := beq_eq_false_iff_ne.mpr hr2
    have hs := step_ok_cont (chainEnv (done ++ r :: r2 :: rest2) tr)
      (chainSys tr done r la trc errs) r.url r.text (tr r.text) r2.url
      rfl rfl hne hvis hf ht rfl hnu
    rw [worker_cont _ f _ _ hs]
    have hsys : savedSys (chainSys tr done r la trc errs) r.url r.text (tr r.text)
        (some r2.url)
        = chainSys tr (done ++ [r]) r2 (savedMsg (done.length + 1))
            (savedSys (chainSys tr done r la trc errs) r.url r.text (tr r.text)
              (some r2.url)).trace errs := by
      simp only [savedSys, chainSys, Sys.mk.injEq, St.mk.injEq]
      and_intros <;> first
        | rfl
        | simp
        | exact saved_chapters_eq tr done r
    rw [hsys]
    have hpag : (done ++ [r]) ++ r2 :: rest2 = done ++ r :: r2 :: rest2 := by simp
    have hih := ih (done ++ [r]) r2 f (savedMsg (done.length + 1))
      (savedSys (chainSys tr done r la trc errs) r.url r.text (tr r.text)
        (some r2.url)).trace errs
      (by rw [hpag]; exact hok)
      (by simp only [List.length_cons] at hfuel; omega)
    rw [hpag] at hih
    have hlen : (done ++ [r]).length + rest2.length + 1
        = done.length + (r2 :: rest2).length + 1 := by
      simp
      omega
    rw [hlen] at hih
    exact hih

/-- C1: for every valid chapter chain (pairwise distinct, nonempty
URLs) with no failures, the worker started from the initial state
(counter 0, empty visited set, frontier at the chain's first URL) with
fuel for every chapter runs to completion and produces exactly N
chapters stored under the contiguous keys 1..N, carrying the rendered
translated bodies in chain order, with `running == false` and the
last action reporting completion at the end. -/
theorem c1_chain_completion (tr : String → String) (p : Page) (rest : List Page)
    (fuel : Nat) (hok : chainOk (p :: rest)) (hfuel : rest.length + 1 ≤ fuel) :
    (worker (chainEnv (p :: rest) tr) fuel (initSys p.url)).st.running = false ∧
    (worker (chainEnv (p :: rest) tr) fuel (initSys p.url)).st.last_action = "Completed" ∧
    (worker (chainEnv (p :: rest) tr) fuel (initSys p.url)).st.chapter
      = (p :: rest).length ∧
    (worker (chainEnv (p :: rest) tr) fuel (initSys p.url)).chapters
      = expChapters tr 0 (p :: rest) ∧
    (worker (chainEnv (p :: rest) tr) fuel (initSys p.url)).chapters.map Prod.fst
      = natsFrom 0 (p :: rest).length ∧
    (worker (chainEnv (p :: rest) tr) fuel (initSys p.url)).errors = [] := by
  have h := chainRun tr rest [] p fuel "Started" [] [] hok hfuel
  simp only [List.nil_append, List.length_nil, Nat.zero_add] at h
  rw [show chainSys tr [] p "Started" [] [] = initSys p.url from rfl] at h
  obtain ⟨h1, h2, h3⟩ := h
  refine ⟨?_, ?_, ?_, h2, ?_, h3⟩
  · rw [h1]
  · rw [h1]
  · rw [h1]
    simp
  · rw [h2, expChapters_keys]

/-- Witness for C1 on the spec's concrete two-page scenario (page A
with two paragraphs linking to page B, page B ending the chain),
translation modelled as the identity. -/
theorem c1_chain_completion_witness :
    chainOk pagesAB ∧
    (worker (chainEnv pagesAB id) 2 (initSys "A")).st.running = false ∧
    (worker (chainEnv pagesAB id) 2 (initSys "A")).st.last_action = "Completed" ∧
    (worker (chainEnv pagesAB id) 2 (initSys "A")).st.chapter = 2 ∧
    (worker (chainEnv pagesAB id) 2 (initSys "A")).chapters
      = [(1, "<p>Hello.</p><p>World.</p>"), (2, "<p>Bye.</p>")] := by
  have h := c1_chain_completion id ⟨"A", "Hello.\n\nWorld."⟩ [⟨"B", "Bye."⟩] 2
    ⟨by decide, by decide⟩ (by decide)
  exact ⟨⟨by decide, by decide⟩, h.1, h.2.1, h.2.2.1, h.2.2.2.1⟩

end NovelTranslator
